import Mathlib

/-
  Verification of the study_buddy question-storage core.

  The SQLite database is shallowly embedded as lists of rows, one list per
  table of the schema declared in `initSQLite` (src/src/storage/sqlite.ts).
  The storage operations of the single-answer module, the multi-choice module
  and the tag subsystem are translated statement by statement from the
  TypeScript source.  `generateGUID()` calls are modelled by an explicit
  identifier supply `ids : Nat -> String` threaded with a counter, and
  `Date.now()` by an explicit `now : Int` parameter.  A thrown JavaScript
  exception is modelled by returning the in-memory state reached so far
  together with `some errorMessage` (the real code mutates a module-global
  handle, so state written before a throw stays applied in memory).

  Engine-level constraints are modelled as SQLite actually enforces them:
  PRIMARY KEY and CHECK constraints are always on (the PRIMARY KEY of
  `question_tags` on insert, the CHECK (difficulty BETWEEN 1 AND 5) of
  `questions` on insert/update), while foreign-key enforcement is OFF —
  the code never executes `PRAGMA foreign_keys = ON`, which SQLite (and
  sql.js, stock SQLite compiled to WebAssembly) requires per connection, so
  the DDL's `ON DELETE CASCADE` clauses are inert and question deletion
  removes only the `questions` row.  Fresh identifiers from the supply are
  assumed not to collide with existing rows where a theorem needs it
  (explicitly, as a hypothesis).
-/

/-- Row of the `questions` table. -/
structure QuestionRow where
  question_id : String
  question_type : String
  difficulty : Int
  created_at : Int
  updated_at : Int
  deriving Repr, DecidableEq

/-- Row of the `single_answer_questions` table. -/
structure SAQuestionRow where
  question_id : String
  question_type : String
  question_text : String
  deriving Repr, DecidableEq

/-- Row of the `single_answer_config` table. -/
structure SAConfigRow where
  question_id : String
  question_type : String
  correct_answer : String
  case_sensitive : Int
  allow_partial_match : Int
  deriving Repr, DecidableEq

/-- Row of the `multi_choice_questions` table. -/
structure MCQuestionRow where
  question_id : String
  question_type : String
  question_text : String
  shuffle_options : Int
  allow_multiple_selection : Int
  deriving Repr, DecidableEq

/-- Row of the `multi_choice_options` table. -/
structure MCOptionRow where
  option_id : String
  question_id : String
  question_type : String
  option_text : String
  is_correct : Int
  display_order : Int
  deriving Repr, DecidableEq

/-- Row of the `tags` table. -/
structure TagRow where
  tag_id : String
  tag_name : String
  created_at : Int
  deriving Repr, DecidableEq

/-- Row of the `question_tags` association table. -/
structure QuestionTagRow where
  question_id : String
  question_type : String
  tag_id : String
  deriving Repr, DecidableEq

/-- The in-memory SQLite database: one list of rows per table of the schema. -/
structure DB where
  questions : List QuestionRow
  single_answer_questions : List SAQuestionRow
  single_answer_config : List SAConfigRow
  multi_choice_questions : List MCQuestionRow
  multi_choice_options : List MCOptionRow
  tags : List TagRow
  question_tags : List QuestionTagRow
  deriving Repr, DecidableEq

/-- The empty database produced by `initSQLite` on a fresh start (the static
`question_types` seed rows play no role in the claims and are not carried). -/
def DB.empty : DB :=
  { questions := [], single_answer_questions := [], single_answer_config := []
    multi_choice_questions := [], multi_choice_options := []
    tags := [], question_tags := [] }

/-- Hexadecimal digit character, as produced by JavaScript
`Number.prototype.toString(16)` on a value in `[0, 16)`. -/
def hexDigit (n : Nat) : Char :=
  if n < 10 then Char.ofNat (48 + n) else Char.ofNat (97 + (n - 10))

/-- Core of `generateGUID` (src/src/storage/sqlite.ts): the
`String.prototype.replace` pass over the template, consuming one random
draw per `x`/`y`.  `rand k % 16` models the k-th `Math.random() * 16 | 0`. -/
def guidReplace (rand : Nat → Nat) : List Char → Nat → List Char
  | [], _ => []
  | c :: cs, k =>
    if c = 'x' then hexDigit (rand k % 16) :: guidReplace rand cs (k + 1)
    else if c = 'y' then hexDigit ((rand k % 16) &&& 3 ||| 8) :: guidReplace rand cs (k + 1)
    else c :: guidReplace rand cs k

/-- `generateGUID` of src/src/storage/sqlite.ts, parameterized by the
stream of `Math.random() * 16 | 0` draws. -/
def generateGUID (rand : Nat → Nat) : String :=
  String.mk (guidReplace rand "xxxxxxxx-xxxx-4xxx-yxxx-xxxxxxxxxxxx".toList 0)

/-- Character is a lowercase hexadecimal digit. -/
def isHexChar (c : Char) : Bool :=
  ('0' ≤ c && c ≤ '9') || ('a' ≤ c && c ≤ 'f')

/-- Bool-level check of the version-4-UUID shape claimed for `generateGUID`:
36 characters, hyphens at 8/13/18/23, version nibble '4' at 14, variant
nibble at 19 among 8/9/a/b, hexadecimal digits everywhere off the hyphens. -/
def guidShaped (cs : List Char) : Bool :=
  cs.length == 36 &&
  ([8, 13, 18, 23] : List Nat).all (fun i => cs.getD i 'Z' == '-') &&
  cs.getD 14 'Z' == '4' &&
  (cs.getD 19 'Z' == '8' || cs.getD 19 'Z' == '9' ||
   cs.getD 19 'Z' == 'a' || cs.getD 19 'Z' == 'b') &&
  ([0, 1, 2, 3, 4, 5, 6, 7, 9, 10, 11, 12, 14, 15, 16, 17, 19, 20, 21, 22,
    24, 25, 26, 27, 28, 29, 30, 31, 32, 33, 34, 35] : List Nat).all
    (fun i => isHexChar (cs.getD i 'Z'))

theorem isHexChar_hexDigit_mod (n : Nat) : isHexChar (hexDigit (n % 16)) = true := by
  have hb : ∀ m, m < 16 → isHexChar (hexDigit m) = true := by decide
  exact hb _ (Nat.mod_lt _ (by norm_num))

theorem variant_hexDigit (n : Nat) :
    (hexDigit ((n % 16) &&& 3 ||| 8) == '8' || hexDigit ((n % 16) &&& 3 ||| 8) == '9' ||
     hexDigit ((n % 16) &&& 3 ||| 8) == 'a' || hexDigit ((n % 16) &&& 3 ||| 8) == 'b') = true := by
  have hb : ∀ m, m < 16 →
      (hexDigit (m &&& 3 ||| 8) == '8' || hexDigit (m &&& 3 ||| 8) == '9' ||
       hexDigit (m &&& 3 ||| 8) == 'a' || hexDigit (m &&& 3 ||| 8) == 'b') = true := by decide
  exact hb _ (Nat.mod_lt _ (by norm_num))

theorem variant_isHex (n : Nat) :
    isHexChar (hexDigit ((n % 16) &&& 3 ||| 8)) = true := by
  have hb : ∀ m, m < 16 → isHexChar (hexDigit (m &&& 3 ||| 8)) = true := by decide
  exact hb _ (Nat.mod_lt _ (by norm_num))

/-- C9: every string produced by `generateGUID` is 36 characters long, has
hyphens at positions 8, 13, 18, 23, hexadecimal digits elsewhere, the version
nibble fixed to '4' at position 14, and the variant nibble at position 19
constrained to one of 8, 9, a, b. -/
theorem generateGUID_shape (rand : Nat → Nat) :
    guidShaped (generateGUID rand).toList = true := by
  have ht : ("xxxxxxxx-xxxx-4xxx-yxxx-xxxxxxxxxxxx".toList : List Char) =
      ['x', 'x', 'x', 'x', 'x', 'x', 'x', 'x', '-',
       'x', 'x', 'x', 'x', '-',
       '4', 'x', 'x', 'x', '-',
       'y', 'x', 'x', 'x', '-',
       'x', 'x', 'x', 'x', 'x', 'x', 'x', 'x', 'x', 'x', 'x', 'x'] := rfl
  have hs : (generateGUID rand).toList =
      guidReplace rand "xxxxxxxx-xxxx-4xxx-yxxx-xxxxxxxxxxxx".toList 0 := rfl
  rw [hs, ht]
  simp only [guidReplace]
  simp [guidShaped, isHexChar_hexDigit_mod, variant_hexDigit, variant_isHex]
  decide

/-- State threaded through the storage operations: the live database plus the
counter into the identifier supply (one step per `generateGUID()` call). -/
structure St where
  db : DB
  n : Nat
  deriving Repr, DecidableEq

/-- Insertion step of the sort used to model the SQL ORDER BY clauses. -/
def insertLe (le : α → α → Bool) (x : α) : List α → List α
  | [] => [x]
  | y :: ys => if le x y then x :: y :: ys else y :: insertLe le x ys

/-- Insertion sort used to model the SQL ORDER BY clauses (the sort keys in
every ordered query of the claims are pairwise distinct, so any correct sort
models the engine's). -/
def sortLe (le : α → α → Bool) : List α → List α
  | [] => []
  | x :: xs => insertLe le x (sortLe le xs)

/-- True JavaScript boolean of an optional flag (`undefined` is falsy). -/
def jsTruthy (o : Option Bool) : Bool := o.getD false

/-- JavaScript `difficulty || 1` on an optional number (`undefined` and `0`
are falsy). -/
def jsOrOne (o : Option Int) : Int :=
  match o with
  | none => 1
  | some v => if v = 0 then 1 else v

/-- Stored-integer form of a JavaScript `b ? 1 : 0`. -/
def boolToInt (b : Bool) : Int := if b then 1 else 0

/-- Character stripped by JavaScript `String.prototype.trim`: the
ECMAScript TrimString set, i.e. WhiteSpace (TAB, VT, FF, SP, NBSP, ZWNBSP
and the Unicode space separators Zs) plus LineTerminator (LF, CR, LS, PS). -/
def isSpaceChar (c : Char) : Bool :=
  c = ' ' || c = '\t' || c = '\n' || c = '\r' ||
  c = Char.ofNat 0x0B || c = Char.ofNat 0x0C ||
  c = Char.ofNat 0xA0 || c = Char.ofNat 0xFEFF ||
  c = Char.ofNat 0x1680 || (0x2000 ≤ c.toNat && c.toNat ≤ 0x200A) ||
  c = Char.ofNat 0x2028 || c = Char.ofNat 0x2029 ||
  c = Char.ofNat 0x202F || c = Char.ofNat 0x205F || c = Char.ofNat 0x3000

/-- JavaScript `String.prototype.trim` as used by the tag subsystem
(`name.trim()`), modelled structurally so it evaluates inside the kernel. -/
def jsTrim (s : String) : String :=
  String.mk (((s.toList.dropWhile isSpaceChar).reverse.dropWhile isSpaceChar).reverse)

/-- Lookup step of `getOrCreateTag`: `SELECT tag_id FROM tags WHERE tag_name = ?`
returning the first row. -/
def findTagByName (db : DB) (name : String) : Option TagRow :=
  db.tags.find? (fun t => t.tag_name == name)

/-- Body of `getOrCreateTag` (src/unnamed/part_005) after the empty-name
check, applied to the trimmed name: return the existing tag identifier on an
exact match, otherwise insert a fresh tag row. -/
def getOrCreateTagCore (ids : Nat → String) (now : Int) (st : St) (trimmed : String) :
    St × String :=
  match findTagByName st.db trimmed with
  | some t => (st, t.tag_id)
  | none =>
    let tid := ids st.n
    ({ db := { st.db with tags := st.db.tags ++ [⟨tid, trimmed, now⟩] }, n := st.n + 1 }, tid)

/-- `getOrCreateTag` of the tag subsystem (src/unnamed/part_005): trims the
name, throws a validation error when the trimmed name is empty, otherwise
resolves or creates the tag and returns its identifier. -/
def getOrCreateTag (ids : Nat → String) (now : Int) (st : St) (tagName : String) :
    St × Except String String :=
  let trimmed := jsTrim tagName
  if trimmed = "" then (st, .error "Tag name cannot be empty")
  else
    let r := getOrCreateTagCore ids now st trimmed
    (r.1, .ok r.2)

/-- Loop body of `setQuestionTags`: for each name, skip it when blank,
otherwise resolve or create the tag (the blank check makes the inner
`getOrCreateTag` call's own empty-name throw unreachable, so it is modelled
by `getOrCreateTagCore` on the trimmed name) and insert the association.
The insert is a plain `INSERT INTO question_tags`, so a second name resolving
to an already-associated tag violates the table's PRIMARY KEY
(question_id, question_type, tag_id) and the statement throws. -/
def setQuestionTagsGo (ids : Nat → String) (now : Int) (qid qt : String) :
    St → List String → St × Option String
  | st, [] => (st, none)
  | st, name :: rest =>
    if jsTrim name = "" then setQuestionTagsGo ids now qid qt st rest
    else
      let c := getOrCreateTagCore ids now st (jsTrim name)
      if c.1.db.question_tags.any
          (fun r => r.question_id == qid && r.question_type == qt && r.tag_id == c.2) then
        (c.1, some "UNIQUE constraint failed: question_tags")
      else
        setQuestionTagsGo ids now qid qt
          { c.1 with db :=
              { c.1.db with question_tags := c.1.db.question_tags ++ [⟨qid, qt, c.2⟩] } }
          rest

/-- `setQuestionTags` of the tag subsystem (src/unnamed/part_005): deletes all
existing associations for the composite key, then walks the input names. -/
def setQuestionTags (ids : Nat → String) (now : Int) (st : St) (qid qt : String)
    (tagNames : List String) : St × Option String :=
  let kept := st.db.question_tags.filter (fun r =>
    !(r.question_id == qid && r.question_type == qt))
  setQuestionTagsGo ids now qid qt { st with db := { st.db with question_tags := kept } } tagNames

/-- `getQuestionTags` (src/unnamed/part_005): tags joined through
`question_tags` on the composite key, ordered by tag name. -/
def getQuestionTags (db : DB) (qid qt : String) : List TagRow :=
  sortLe (fun a b => decide (a.tag_name ≤ b.tag_name))
    (db.tags.filter (fun t => db.question_tags.any
      (fun r => r.tag_id == t.tag_id && r.question_id == qid && r.question_type == qt)))

/-- `deleteUnusedTags` (src/unnamed/part_005): deletes every tag whose id is
not referenced by any association row. -/
def deleteUnusedTags (db : DB) : DB :=
  let kept := db.tags.filter (fun t => db.question_tags.any (fun r => r.tag_id == t.tag_id))
  { db with tags := kept }

/-- `DELETE FROM questions WHERE question_id = ? AND question_type = ?` as
the program actually executes it: the code never runs
`PRAGMA foreign_keys = ON`, and SQLite (sql.js is stock SQLite compiled to
WebAssembly) leaves foreign-key enforcement OFF by default per connection,
so the `ON DELETE CASCADE` clauses declared in the DDL are inert.  The
statement removes only the matching `questions` rows; body, config, option
and `question_tags` rows carrying the same composite key survive as
orphans. -/
def deleteQuestion (db : DB) (qid qt : String) : DB :=
  let q' := db.questions.filter (fun r => !(r.question_id == qid && r.question_type == qt))
  { db with questions := q' }

/-- `deleteSingleAnswerQuestion` (src/unnamed/part_003). -/
def deleteSingleAnswerQuestion (db : DB) (qid : String) : DB :=
  deleteQuestion db qid "single_answer"

/-- `deleteMultiChoiceQuestion` (src/unnamed/part_004). -/
def deleteMultiChoiceQuestion (db : DB) (qid : String) : DB :=
  deleteQuestion db qid "multi_choice"

/-- Input of `createSingleAnswerQuestion` (optional fields are `undefined`
when absent). -/
structure SACreateData where
  questionText : String
  correctAnswer : String
  caseSensitive : Option Bool
  allowPartialMatch : Option Bool
  tags : Option (List String)
  difficulty : Option Int
  deriving Repr, DecidableEq

/-- Shared tail of the create operations: set tags only when they were
supplied and non-empty, then return the new question identifier (an error
thrown while setting tags propagates out of the create). -/
def createFinishTags (ids : Nat → String) (now : Int) (st : St) (qid qt : String)
    (tags : Option (List String)) : St × Except String String :=
  match tags with
  | some l =>
    if l.isEmpty then (st, .ok qid)
    else
      let r := setQuestionTags ids now st qid qt l
      match r.2 with
      | none => (r.1, .ok qid)
      | some e => (r.1, .error e)
  | none => (st, .ok qid)

/-- `createSingleAnswerQuestion` (src/unnamed/part_003): generates an
identifier, inserts the core row (difficulty `data.difficulty || 1`, subject
to the schema's CHECK 1..5), the body row and the config row, then sets tags
when supplied and non-empty. -/
def createSingleAnswerQuestion (ids : Nat → String) (now : Int) (st : St)
    (data : SACreateData) : St × Except String String :=
  let qid := ids st.n
  let st1 : St := { st with n := st.n + 1 }
  let d := jsOrOne data.difficulty
  if 1 ≤ d ∧ d ≤ 5 then
    let db1 := { st1.db with questions :=
      st1.db.questions ++ [QuestionRow.mk qid "single_answer" d now now] }
    let db2 := { db1 with single_answer_questions :=
      db1.single_answer_questions ++ [SAQuestionRow.mk qid "single_answer" data.questionText] }
    let db3 := { db2 with single_answer_config :=
      db2.single_answer_config ++
        [SAConfigRow.mk qid "single_answer" data.correctAnswer
          (boolToInt (jsTruthy data.caseSensitive)) (boolToInt (jsTruthy data.allowPartialMatch))] }
    createFinishTags ids now { st1 with db := db3 } qid "single_answer" data.tags
  else (st1, .error "CHECK constraint failed: difficulty")

/-- View object returned by `getSingleAnswerQuestion`. -/
structure SAView where
  questionId : String
  questionText : String
  correctAnswer : String
  caseSensitive : Bool
  allowPartialMatch : Bool
  tags : List TagRow
  difficulty : Int
  createdAt : Int
  updatedAt : Int
  deriving Repr, DecidableEq

/-- `getSingleAnswerQuestion` (src/unnamed/part_003): inner join of
`questions`, `single_answer_questions` and `single_answer_config` on the
composite key (each has at most one matching row by its primary key), with
the stored 0/1 integers coerced to booleans and the tag list attached;
absence of a matching composite key yields `none`. -/
def getSingleAnswerQuestion (db : DB) (qid : String) : Option SAView :=
  match db.questions.find? (fun r => r.question_id == qid && r.question_type == "single_answer"),
        db.single_answer_questions.find? (fun r =>
          r.question_id == qid && r.question_type == "single_answer"),
        db.single_answer_config.find? (fun r =>
          r.question_id == qid && r.question_type == "single_answer") with
  | some q, some b, some c =>
    some { questionId := q.question_id, questionText := b.question_text
           correctAnswer := c.correct_answer
           caseSensitive := c.case_sensitive != 0
           allowPartialMatch := c.allow_partial_match != 0
           tags := getQuestionTags db qid "single_answer"
           difficulty := q.difficulty, createdAt := q.created_at, updatedAt := q.updated_at }
  | _, _, _ => none

/-- Partial input of `updateSingleAnswerQuestion`. -/
structure SAUpdateData where
  questionText : Option String
  correctAnswer : Option String
  caseSensitive : Option Bool
  allowPartialMatch : Option Bool
  tags : Option (List String)
  difficulty : Option Int
  deriving Repr, DecidableEq

/-- The all-absent partial update. -/
def SAUpdateData.empty : SAUpdateData :=
  { questionText := none, correctAnswer := none, caseSensitive := none
    allowPartialMatch := none, tags := none, difficulty := none }

/-- `updateSingleAnswerQuestion` (src/unnamed/part_003): updates the core row
(difficulty only when supplied, timestamp always), the body row only when the
text is supplied, the config row only when one of its three fields is
supplied (each field kept when absent), then replaces the tag set only when
`tags` is supplied. -/
def updateSingleAnswerQuestion (ids : Nat → String) (now : Int) (st : St) (qid : String)
    (data : SAUpdateData) : St × Option String :=
  let bad : Bool := match data.difficulty with
    | some d => !(1 ≤ d && d ≤ 5)
    | none => false
  if bad then (st, some "CHECK constraint failed: difficulty")
  else
    let q' := st.db.questions.map (fun r =>
      if r.question_id == qid && r.question_type == "single_answer" then
        match data.difficulty with
        | some d => { r with difficulty := d, updated_at := now }
        | none => { r with updated_at := now }
      else r)
    let saq' := match data.questionText with
      | some t => st.db.single_answer_questions.map (fun r =>
          if r.question_id == qid && r.question_type == "single_answer" then
            { r with question_text := t }
          else r)
      | none => st.db.single_answer_questions
    let touchConfig : Bool :=
      data.correctAnswer.isSome || data.caseSensitive.isSome || data.allowPartialMatch.isSome
    let sac' :=
      if touchConfig then
        st.db.single_answer_config.map (fun r =>
          if r.question_id == qid && r.question_type == "single_answer" then
            { r with
              correct_answer := data.correctAnswer.getD r.correct_answer
              case_sensitive := match data.caseSensitive with
                | some b => boolToInt b
                | none => r.case_sensitive
              allow_partial_match := match data.allowPartialMatch with
                | some b => boolToInt b
                | none => r.allow_partial_match }
          else r)
      else st.db.single_answer_config
    let st1 : St := { st with db :=
      { st.db with questions := q', single_answer_questions := saq'
                   single_answer_config := sac' } }
    match data.tags with
    | some l => setQuestionTags ids now st1 qid "single_answer" l
    | none => (st1, none)

/-- One option of a multi-choice input payload. -/
structure OptionInput where
  optionText : String
  isCorrect : Bool
  deriving Repr, DecidableEq

/-- Full payload of `createMultiChoiceQuestion` / `updateMultiChoiceQuestion`. -/
structure MCData where
  questionText : String
  options : List OptionInput
  shuffleOptions : Option Bool
  allowMultipleSelection : Option Bool
  tags : Option (List String)
  difficulty : Option Int
  deriving Repr, DecidableEq

/-- `validateOptions` (src/unnamed/part_004): throws when fewer than 2
options are supplied, when no option is marked correct, or when multiple
selection is disabled and the correct-count is not exactly 1. -/
def validateOptions (options : List OptionInput) (allowMultiple : Bool) : Except String Unit :=
  if options.length < 2 then .error "At least 2 options are required"
  else
    let correctCount := (options.filter (fun o => o.isCorrect)).length
    if correctCount = 0 then .error "At least one option must be marked as correct"
    else if !allowMultiple && correctCount != 1 then
      .error "Single selection mode requires exactly one correct answer"
    else .ok ()

/-- Option rows inserted by the `forEach` loops of the multi-choice module:
one row per input option, display order equal to the 0-based position, a
fresh identifier per row taken from the supply starting at `base`. -/
def insertedOptionRows (ids : Nat → String) (base : Nat) (qid : String) :
    Nat → List OptionInput → List MCOptionRow
  | _, [] => []
  | i, o :: os =>
    ⟨ids (base + i), qid, "multi_choice", o.optionText, boolToInt o.isCorrect, (i : Int)⟩ ::
      insertedOptionRows ids base qid (i + 1) os

/-- `createMultiChoiceQuestion` (src/unnamed/part_004): validates the options
before any database write, then inserts the core row (difficulty
`data.difficulty || 1`, subject to the schema's CHECK 1..5), the body row and
one option row per input option, then sets tags when supplied and non-empty. -/
def createMultiChoiceQuestion (ids : Nat → String) (now : Int) (st : St)
    (data : MCData) : St × Except String String :=
  match validateOptions data.options (jsTruthy data.allowMultipleSelection) with
  | .error e => (st, .error e)
  | .ok _ =>
    let qid := ids st.n
    let d := jsOrOne data.difficulty
    if 1 ≤ d ∧ d ≤ 5 then
      let db1 := { st.db with questions :=
        st.db.questions ++ [QuestionRow.mk qid "multi_choice" d now now] }
      let db2 := { db1 with multi_choice_questions :=
        db1.multi_choice_questions ++
          [MCQuestionRow.mk qid "multi_choice" data.questionText
            (boolToInt (jsTruthy data.shuffleOptions))
            (boolToInt (jsTruthy data.allowMultipleSelection))] }
      let db3 := { db2 with multi_choice_options :=
        db2.multi_choice_options ++ insertedOptionRows ids (st.n + 1) qid 0 data.options }
      createFinishTags ids now { db := db3, n := st.n + 1 + data.options.length }
        qid "multi_choice" data.tags
    else ({ st with n := st.n + 1 }, .error "CHECK constraint failed: difficulty")

/-- View of one option row returned by `getMultiChoiceQuestion`. -/
structure MCOptionView where
  optionId : String
  optionText : String
  isCorrect : Bool
  displayOrder : Int
  deriving Repr, DecidableEq

/-- View object returned by `getMultiChoiceQuestion`. -/
structure MCView where
  questionId : String
  questionText : String
  shuffleOptions : Bool
  allowMultipleSelection : Bool
  options : List MCOptionView
  tags : List TagRow
  difficulty : Int
  createdAt : Int
  updatedAt : Int
  deriving Repr, DecidableEq

/-- `getMultiChoiceQuestion` (src/unnamed/part_004): inner join of `questions`
and `multi_choice_questions` on the composite key, options fetched ordered by
`display_order` ascending, stored 0/1 integers coerced to booleans, tag list
attached; absence of a matching composite key yields `none`. -/
def getMultiChoiceQuestion (db : DB) (qid : String) : Option MCView :=
  match db.questions.find? (fun r => r.question_id == qid && r.question_type == "multi_choice"),
        db.multi_choice_questions.find? (fun r =>
          r.question_id == qid && r.question_type == "multi_choice") with
  | some q, some b =>
    let opts := sortLe (fun a b => decide (a.display_order ≤ b.display_order))
      (db.multi_choice_options.filter (fun r =>
        r.question_id == qid && r.question_type == "multi_choice"))
    some { questionId := q.question_id, questionText := b.question_text
           shuffleOptions := b.shuffle_options != 0
           allowMultipleSelection := b.allow_multiple_selection != 0
           options := opts.map (fun r =>
             ⟨r.option_id, r.option_text, r.is_correct != 0, r.display_order⟩)
           tags := getQuestionTags db qid "multi_choice"
           difficulty := q.difficulty, createdAt := q.created_at, updatedAt := q.updated_at }
  | _, _ => none

/-- `updateMultiChoiceQuestion` (src/unnamed/part_004): validates the options
before any write, then unconditionally updates the core row (difficulty
`data.difficulty || 1`, subject to the schema's CHECK 1..5) and the body row,
deletes every existing option row for the question, re-inserts the full new
option set with fresh identifiers and display orders from the new positions,
and always replaces the tag set with `data.tags || []`. -/
def updateMultiChoiceQuestion (ids : Nat → String) (now : Int) (st : St) (qid : String)
    (data : MCData) : St × Option String :=
  match validateOptions data.options (jsTruthy data.allowMultipleSelection) with
  | .error e => (st, some e)
  | .ok _ =>
    let d := jsOrOne data.difficulty
    if 1 ≤ d ∧ d ≤ 5 then
      let q' := st.db.questions.map (fun r =>
        if r.question_id == qid && r.question_type == "multi_choice" then
          { r with difficulty := d, updated_at := now }
        else r)
      let mcq' := st.db.multi_choice_questions.map (fun r =>
        if r.question_id == qid && r.question_type == "multi_choice" then
          { r with question_text := data.questionText
                   shuffle_options := boolToInt (jsTruthy data.shuffleOptions)
                   allow_multiple_selection := boolToInt (jsTruthy data.allowMultipleSelection) }
        else r)
      let mcoKept := st.db.multi_choice_options.filter (fun r =>
        !(r.question_id == qid && r.question_type == "multi_choice"))
      let mco' := mcoKept ++ insertedOptionRows ids st.n qid 0 data.options
      let st1 : St :=
        { db := { st.db with questions := q', multi_choice_questions := mcq'
                             multi_choice_options := mco' }
          n := st.n + data.options.length }
      setQuestionTags ids now st1 qid "multi_choice" (data.tags.getD [])
    else (st, some "CHECK constraint failed: difficulty")

theorem getOrCreateTagCore_pres (ids : Nat → String) (now : Int) (st : St) (t : String) :
    (getOrCreateTagCore ids now st t).1.db.questions = st.db.questions ∧
    (getOrCreateTagCore ids now st t).1.db.single_answer_questions
      = st.db.single_answer_questions ∧
    (getOrCreateTagCore ids now st t).1.db.single_answer_config = st.db.single_answer_config ∧
    (getOrCreateTagCore ids now st t).1.db.multi_choice_questions
      = st.db.multi_choice_questions ∧
    (getOrCreateTagCore ids now st t).1.db.multi_choice_options = st.db.multi_choice_options ∧
    (getOrCreateTagCore ids now st t).1.db.question_tags = st.db.question_tags := by
  unfold getOrCreateTagCore
  cases findTagByName st.db t <;> simp

theorem setTagsGo_pres (ids : Nat → String) (now : Int) (qid qt : String)
    (names : List String) : ∀ (st : St),
    (setQuestionTagsGo ids now qid qt st names).1.db.questions = st.db.questions ∧
    (setQuestionTagsGo ids now qid qt st names).1.db.single_answer_questions
      = st.db.single_answer_questions ∧
    (setQuestionTagsGo ids now qid qt st names).1.db.single_answer_config
      = st.db.single_answer_config ∧
    (setQuestionTagsGo ids now qid qt st names).1.db.multi_choice_questions
      = st.db.multi_choice_questions ∧
    (setQuestionTagsGo ids now qid qt st names).1.db.multi_choice_options
      = st.db.multi_choice_options := by
  induction names with
  | nil => intro st; simp [setQuestionTagsGo]
  | cons hd tl ih =>
    intro st
    by_cases hb : jsTrim hd = ""
    · simpa [setQuestionTagsGo, hb] using ih st
    · have hc := getOrCreateTagCore_pres ids now st (jsTrim hd)
      by_cases hdup : ((getOrCreateTagCore ids now st (jsTrim hd)).1.db.question_tags.any
          (fun r => r.question_id == qid && r.question_type == qt &&
            r.tag_id == (getOrCreateTagCore ids now st (jsTrim hd)).2)) = true
      · simp [setQuestionTagsGo, hb, hdup]
        tauto
      · simp only [Bool.not_eq_true] at hdup
        have hih := ih { (getOrCreateTagCore ids now st (jsTrim hd)).1 with db :=
          { (getOrCreateTagCore ids now st (jsTrim hd)).1.db with question_tags :=
              (getOrCreateTagCore ids now st (jsTrim hd)).1.db.question_tags ++
                [⟨qid, qt, (getOrCreateTagCore ids now st (jsTrim hd)).2⟩] } }
        simp only [setQuestionTagsGo, hb, if_false, hdup, Bool.false_eq_true] at hih ⊢
        simp only [hih]
        tauto

theorem setQuestionTags_pres (ids : Nat → String) (now : Int) (st : St) (qid qt : String)
    (names : List String) :
    (setQuestionTags ids now st qid qt names).1.db.questions = st.db.questions ∧
    (setQuestionTags ids now st qid qt names).1.db.single_answer_questions
      = st.db.single_answer_questions ∧
    (setQuestionTags ids now st qid qt names).1.db.single_answer_config
      = st.db.single_answer_config ∧
    (setQuestionTags ids now st qid qt names).1.db.multi_choice_questions
      = st.db.multi_choice_questions ∧
    (setQuestionTags ids now st qid qt names).1.db.multi_choice_options
      = st.db.multi_choice_options := by
  unfold setQuestionTags
  exact setTagsGo_pres ids now qid qt names _

/-- Number of options marked correct. -/
def correctCount (options : List OptionInput) : Nat :=
  (options.filter (fun o => o.isCorrect)).length

/-- Bool form of the acceptance condition claimed for `validateOptions`:
at least 2 options, at least one correct, and when multiple selection is
disabled exactly one correct. -/
def optionsValid (options : List OptionInput) (allowMultiple : Bool) : Bool :=
  (2 ≤ options.length : Bool) && (correctCount options != 0) &&
    (allowMultiple || correctCount options == 1)

theorem validateOptions_ok_iff (opts : List OptionInput) (am : Bool) :
    validateOptions opts am = .ok () ↔ optionsValid opts am = true := by
  unfold validateOptions optionsValid correctCount
  by_cases h1 : opts.length < 2
  · simp [h1]
  · by_cases h2 : (opts.filter (fun o => o.isCorrect)).length = 0
    · simp [h1, h2]
    · by_cases h3 : (!am && (opts.filter (fun o => o.isCorrect)).length != 1) = true
      · simp only [h1, if_false, h2, h3, if_true]
        cases am <;> simp_all
      · simp only [Bool.not_eq_true] at h3
        simp only [h1, if_false, h2, h3, if_true]
        cases am <;> simp_all

/-- C2: `validateOptions` accepts exactly when the option list has at least 2
options, at least one marked correct, and — when multiple selection is
disabled — exactly one marked correct (so it throws exactly in the claimed
cases); and in both `createMultiChoiceQuestion` and
`updateMultiChoiceQuestion` the validation error surfaces before any database
write, leaving the state (database and identifier counter) unchanged. -/
theorem validateOptions_gate (data : MCData) (ids : Nat → String) (now : Int) (st : St)
    (qid : String) (e : String)
    (h : validateOptions data.options (jsTruthy data.allowMultipleSelection) = .error e) :
    createMultiChoiceQuestion ids now st data = (st, .error e) ∧
    updateMultiChoiceQuestion ids now st qid data = (st, some e) ∧
    (∀ opts am, validateOptions opts am = Except.ok () ↔ optionsValid opts am = true) := by
  refine ⟨?_, ?_, fun opts am => validateOptions_ok_iff opts am⟩
  · unfold createMultiChoiceQuestion
    rw [h]
  · unfold updateMultiChoiceQuestion
    rw [h]

theorem validateOptions_gate_witness :
    validateOptions [⟨"only", true⟩] false = .error "At least 2 options are required" ∧
    createMultiChoiceQuestion (fun i => toString i) 5 ⟨DB.empty, 0⟩
        ⟨"q?", [⟨"only", true⟩], none, none, none, none⟩
      = (⟨DB.empty, 0⟩, .error "At least 2 options are required") ∧
    optionsValid [⟨"a", true⟩, ⟨"b", false⟩] false = true := by
  refine ⟨by rfl, ?_, by decide⟩
  exact (validateOptions_gate ⟨"q?", [⟨"only", true⟩], none, none, none, none⟩
    (fun i => toString i) 5 ⟨DB.empty, 0⟩ "x" "At least 2 options are required" (by rfl)).1

/-- C8: fetching a question whose composite key is absent from the
`questions` table returns the explicit absence value `none` (both getters
are total functions into `Option`, so "not found" never throws). -/
theorem get_absent_returns_none (db : DB) (qid : String)
    (h1 : ∀ r ∈ db.questions,
      ¬(r.question_id = qid ∧ r.question_type = "single_answer"))
    (h2 : ∀ r ∈ db.questions,
      ¬(r.question_id = qid ∧ r.question_type = "multi_choice")) :
    getSingleAnswerQuestion db qid = none ∧ getMultiChoiceQuestion db qid = none := by
  have hf1 : db.questions.find?
      (fun r => r.question_id == qid && r.question_type == "single_answer") = none := by
    rw [List.find?_eq_none]
    intro r hr
    simpa using h1 r hr
  have hf2 : db.questions.find?
      (fun r => r.question_id == qid && r.question_type == "multi_choice") = none := by
    rw [List.find?_eq_none]
    intro r hr
    simpa using h2 r hr
  constructor
  · unfold getSingleAnswerQuestion
    rw [hf1]
  · unfold getMultiChoiceQuestion
    rw [hf2]

theorem get_absent_returns_none_witness :
    getSingleAnswerQuestion DB.empty "missing" = none ∧
    getMultiChoiceQuestion DB.empty "missing" = none :=
  get_absent_returns_none DB.empty "missing" (by decide) (by decide)

/-- Concrete database used to evaluate question deletion: a single-answer
question q1 (with body, config and a tag association), a multi-choice
question q2 (with body, two options and a tag association), and the two tags. -/
def dbCascade : DB :=
  { questions := [⟨"q1", "single_answer", 2, 0, 0⟩, ⟨"q2", "multi_choice", 3, 0, 0⟩]
    single_answer_questions := [⟨"q1", "single_answer", "Capital of France?"⟩]
    single_answer_config := [⟨"q1", "single_answer", "Paris", 0, 0⟩]
    multi_choice_questions := [⟨"q2", "multi_choice", "2+2?", 0, 0⟩]
    multi_choice_options := [⟨"o1", "q2", "multi_choice", "3", 0, 0⟩,
                             ⟨"o2", "q2", "multi_choice", "4", 1, 1⟩]
    tags := [⟨"t1", "geography", 0⟩, ⟨"t2", "maths", 0⟩]
    question_tags := [⟨"q1", "single_answer", "t1"⟩, ⟨"q2", "multi_choice", "t2"⟩] }

/-- C1 (code bug): the DDL declares `ON DELETE CASCADE` on every child
table, but the program never executes `PRAGMA foreign_keys = ON` and
SQLite/sql.js defaults foreign-key enforcement off, so the cascade never
fires.  Evaluated on `dbCascade`: deleting single-answer question q1 (and
multi-choice question q2) removes only the `questions` row, while the body
row, the config row, the tag associations and the option rows of the deleted
question all survive as orphans — contradicting the claimed cascade (and the
DDL's own declared intent).  The surviving association even keeps showing up
through `getQuestionTags`. -/
theorem deleteQuestion_no_cascade :
    (deleteSingleAnswerQuestion dbCascade "q1").questions
      = [⟨"q2", "multi_choice", 3, 0, 0⟩] ∧
    (deleteSingleAnswerQuestion dbCascade "q1").single_answer_questions
      = [⟨"q1", "single_answer", "Capital of France?"⟩] ∧
    (deleteSingleAnswerQuestion dbCascade "q1").single_answer_config
      = [⟨"q1", "single_answer", "Paris", 0, 0⟩] ∧
    (deleteSingleAnswerQuestion dbCascade "q1").question_tags
      = [⟨"q1", "single_answer", "t1"⟩, ⟨"q2", "multi_choice", "t2"⟩] ∧
    getQuestionTags (deleteSingleAnswerQuestion dbCascade "q1") "q1" "single_answer"
      = [⟨"t1", "geography", 0⟩] ∧
    (deleteMultiChoiceQuestion dbCascade "q2").questions
      = [⟨"q1", "single_answer", 2, 0, 0⟩] ∧
    (deleteMultiChoiceQuestion dbCascade "q2").multi_choice_questions
      = [⟨"q2", "multi_choice", "2+2?", 0, 0⟩] ∧
    (deleteMultiChoiceQuestion dbCascade "q2").multi_choice_options
      = [⟨"o1", "q2", "multi_choice", "3", 0, 0⟩,
         ⟨"o2", "q2", "multi_choice", "4", 1, 1⟩] := by
  decide

/-- C10: `updateMultiChoiceQuestion` writes `data.difficulty || 1` into the
core row unconditionally, so a payload whose difficulty is absent (or the
falsy 0) stores difficulty 1 for the question instead of keeping the
previously stored difficulty. -/
theorem updateMC_difficulty_reset (ids : Nat → String) (now : Int) (st : St) (qid : String)
    (data : MCData)
    (hfalsy : data.difficulty = none ∨ data.difficulty = some 0)
    (hvalid : validateOptions data.options (jsTruthy data.allowMultipleSelection) = .ok ()) :
    ∀ r ∈ (updateMultiChoiceQuestion ids now st qid data).1.db.questions,
      r.question_id = qid → r.question_type = "multi_choice" → r.difficulty = 1 := by
  have hone : jsOrOne data.difficulty = 1 := by
    rcases hfalsy with h | h <;> simp [jsOrOne, h]
  intro r hr h1 h2
  unfold updateMultiChoiceQuestion at hr
  rw [hvalid] at hr
  simp only [hone] at hr
  rw [if_pos (by norm_num : (1 : Int) ≤ 1 ∧ (1 : Int) ≤ 5)] at hr
  try dsimp only at hr
  rw [(setQuestionTags_pres ids now _ qid "multi_choice" (data.tags.getD [])).1] at hr
  try dsimp only at hr
  obtain ⟨r0, hr0, hg⟩ := List.mem_map.mp hr
  by_cases hk : (r0.question_id == qid && r0.question_type == "multi_choice") = true
  · rw [if_pos hk] at hg
    rw [← hg]
  · rw [if_neg hk] at hg
    subst hg
    simp [h1, h2] at hk

/-- Fixed state used by the concrete update witnesses: one multi-choice
question q2 with stored difficulty 4 and two options. -/
def stMC : St :=
  { db := { DB.empty with
      questions := [⟨"q2", "multi_choice", 4, 0, 0⟩]
      multi_choice_questions := [⟨"q2", "multi_choice", "2+2?", 0, 0⟩]
      multi_choice_options := [⟨"o1", "q2", "multi_choice", "3", 0, 0⟩,
                               ⟨"o2", "q2", "multi_choice", "4", 1, 1⟩] }
    n := 0 }

/-- Payload omitting the difficulty, used by the update witnesses. -/
def mcPayloadNoDiff : MCData :=
  { questionText := "2+2?", options := [⟨"3", false⟩, ⟨"4", true⟩]
    shuffleOptions := none, allowMultipleSelection := none, tags := none, difficulty := none }

theorem updateMC_difficulty_reset_witness :
    ((updateMultiChoiceQuestion (fun i => "g" ++ toString i) 9 stMC "q2"
        mcPayloadNoDiff).1.db.questions.getD 0 ⟨"", "", 0, 0, 0⟩).difficulty = 1 :=
  updateMC_difficulty_reset (fun i => "g" ++ toString i) 9 stMC "q2" mcPayloadNoDiff
    (Or.inl rfl) (by rfl) _ (by decide) (by decide) (by decide)

/-- Number of rows in the `tags` table carrying the given name. -/
def tagNameCount (db : DB) (name : String) : Nat :=
  (db.tags.filter (fun t => t.tag_name == name)).length

/-- C4: `getOrCreateTag` throws a validation error (creating nothing) on a
name whose trimmed form is empty, and is idempotent on any other name: the
first call returns an identifier leaving exactly one row for that trimmed
name (assuming the UNIQUE constraint invariant, at most one beforehand), and
a second call with the same name returns the same identifier from the same
state, so exactly one row remains. -/
theorem getOrCreateTag_idempotent (ids ids2 : Nat → String) (now now2 : Int) (st : St)
    (tagName : String) :
    (jsTrim tagName = "" →
      getOrCreateTag ids now st tagName = (st, .error "Tag name cannot be empty")) ∧
    (jsTrim tagName ≠ "" → tagNameCount st.db (jsTrim tagName) ≤ 1 →
      ∃ st1 tid,
        getOrCreateTag ids now st tagName = (st1, .ok tid) ∧
        getOrCreateTag ids2 now2 st1 tagName = (st1, .ok tid) ∧
        tagNameCount st1.db (jsTrim tagName) = 1) := by
  constructor
  · intro h
    unfold getOrCreateTag
    rw [if_pos h]
  · intro h1 h2
    cases hf : findTagByName st.db (jsTrim tagName) with
    | some t =>
      refine ⟨st, t.tag_id, ?_, ?_, ?_⟩
      · unfold getOrCreateTag
        rw [if_neg h1]
        unfold getOrCreateTagCore
        rw [hf]
      · unfold getOrCreateTag
        rw [if_neg h1]
        unfold getOrCreateTagCore
        rw [hf]
      · have hmem : t ∈ st.db.tags := List.mem_of_find?_eq_some hf
        have hf2 : st.db.tags.find? (fun t => t.tag_name == jsTrim tagName) = some t := hf
        have hp := List.find?_some hf2
        have hge : 1 ≤ tagNameCount st.db (jsTrim tagName) := by
          have : t ∈ st.db.tags.filter (fun t => t.tag_name == jsTrim tagName) :=
            List.mem_filter.mpr ⟨hmem, hp⟩
          exact List.length_pos.mpr (List.ne_nil_of_mem this)
        omega
    | none =>
      have hnone : st.db.tags.find? (fun t => t.tag_name == jsTrim tagName) = none := hf
      have hfilter : st.db.tags.filter (fun t => t.tag_name == jsTrim tagName) = [] := by
        rw [List.filter_eq_nil_iff]
        intro a ha
        exact List.find?_eq_none.mp hnone a ha
      refine ⟨⟨{ st.db with tags := st.db.tags ++ [⟨ids st.n, jsTrim tagName, now⟩] }, st.n + 1⟩,
        ids st.n, ?_, ?_, ?_⟩
      · unfold getOrCreateTag
        rw [if_neg h1]
        unfold getOrCreateTagCore
        rw [hf]
      · unfold getOrCreateTag
        rw [if_neg h1]
        unfold getOrCreateTagCore
        unfold findTagByName
        dsimp only
        rw [List.find?_append, hnone]
        simp [List.find?]
      · unfold tagNameCount
        dsimp only
        rw [List.filter_append, hfilter]
        simp

theorem getOrCreateTag_idempotent_witness :
    getOrCreateTag (fun i => "t" ++ toString i) 0 ⟨DB.empty, 0⟩ "  " =
      (⟨DB.empty, 0⟩, .error "Tag name cannot be empty") ∧
    tagNameCount
      (getOrCreateTag (fun i => "t" ++ toString i) 0 ⟨DB.empty, 0⟩ "geo").1.db "geo" = 1 := by
  constructor
  · exact (getOrCreateTag_idempotent (fun i => "t" ++ toString i)
      (fun i => "t" ++ toString i) 0 0 ⟨DB.empty, 0⟩ "  ").1 (by decide)
  · obtain ⟨st1, tid, he, hsecond, hcount⟩ :=
      (getOrCreateTag_idempotent (fun i => "t" ++ toString i)
        (fun i => "u" ++ toString i) 0 1 ⟨DB.empty, 0⟩ "geo").2 (by decide) (by decide)
    rw [he]
    exact hcount

/-- Association rows of `question_tags` carrying the given composite key. -/
def keyAssocs (db : DB) (qid qt : String) : List QuestionTagRow :=
  db.question_tags.filter (fun r => r.question_id == qid && r.question_type == qt)

/-- Trimmed forms of the non-blank names of a tag input list (the names the
`setQuestionTags` loop actually processes). -/
def trimmedNonBlank (names : List String) : List String :=
  (names.filter (fun s => !(jsTrim s == ""))).map jsTrim

/-- C5 counterexample: an input repeating the same name makes the second
plain `INSERT INTO question_tags` hit the table's PRIMARY KEY
(question_id, question_type, tag_id), so the operation throws instead of
collapsing the duplicate into one association. -/
theorem setQuestionTags_duplicate_throws :
    (setQuestionTags (fun i => "t" ++ toString i) 0 ⟨DB.empty, 0⟩ "q" "single_answer"
      ["a", "a"]).2 = some "UNIQUE constraint failed: question_tags" := by decide

theorem setTagsGo_master (ids : Nat → String) (now : Int) (qid qt : String) :
    ∀ (names : List String) (st : St),
    (trimmedNonBlank names).Nodup →
    (st.db.tags.map (fun t => t.tag_id)).Nodup →
    (st.db.tags.map (fun t => t.tag_name)).Nodup →
    (∀ k, st.n ≤ k → k < st.n + names.length → ∀ t ∈ st.db.tags, ids k ≠ t.tag_id) →
    (∀ j k, st.n ≤ j → j < st.n + names.length → st.n ≤ k → k < st.n + names.length →
      ids j = ids k → j = k) →
    (∀ r ∈ keyAssocs st.db qid qt, ∃ t ∈ st.db.tags,
      t.tag_id = r.tag_id ∧ t.tag_name ∉ trimmedNonBlank names) →
    (setQuestionTagsGo ids now qid qt st names).2 = none ∧
    (keyAssocs (setQuestionTagsGo ids now qid qt st names).1.db qid qt).length
      = (keyAssocs st.db qid qt).length + (trimmedNonBlank names).length ∧
    (∀ t ∈ st.db.tags, t ∈ (setQuestionTagsGo ids now qid qt st names).1.db.tags) ∧
    ((setQuestionTagsGo ids now qid qt st names).1.db.question_tags.filter
        (fun r => !(r.question_id == qid && r.question_type == qt))
      = st.db.question_tags.filter
        (fun r => !(r.question_id == qid && r.question_type == qt))) := by
  intro names
  induction names with
  | nil =>
    intro st hnd hids hnames hfresh hinj hA
    simp [setQuestionTagsGo, trimmedNonBlank]
  | cons name rest ih =>
    intro st hnd hids hnames hfresh hinj hA
    by_cases hb : jsTrim name = ""
    · have htnb : trimmedNonBlank (name :: rest) = trimmedNonBlank rest := by
        simp [trimmedNonBlank, hb]
      rw [htnb] at hnd hA
      have hres := ih st hnd hids hnames
        (fun k h1 h2 => hfresh k h1 (by simp at h2 ⊢; omega))
        (fun j k h1 h2 h3 h4 => hinj j k h1 (by simp at h2 ⊢; omega) h3 (by simp at h4 ⊢; omega))
        hA
      simp only [setQuestionTagsGo, hb, if_true, if_pos rfl]
      rw [htnb]
      exact hres
    · have htnb : trimmedNonBlank (name :: rest) = jsTrim name :: trimmedNonBlank rest := by
        simp [trimmedNonBlank, hb]
      rw [htnb] at hnd hA
      have hndrest : (trimmedNonBlank rest).Nodup := hnd.of_cons
      have hheadnot : jsTrim name ∉ trimmedNonBlank rest := by
        have := List.nodup_cons.mp hnd
        exact this.1
      cases hf : findTagByName st.db (jsTrim name) with
      | some x =>
        have hxmem : x ∈ st.db.tags := List.mem_of_find?_eq_some hf
        have hxname : x.tag_name = jsTrim name := by
          have hf2 : st.db.tags.find? (fun t => t.tag_name == jsTrim name) = some x := hf
          have := List.find?_some hf2
          simpa using this
        -- the duplicate check cannot fire
        have hnodup : (st.db.question_tags.any
            (fun r => r.question_id == qid && r.question_type == qt &&
              r.tag_id == x.tag_id)) = false := by
          rw [Bool.eq_false_iff]
          intro hany
          rw [List.any_eq_true] at hany
          obtain ⟨r, hrmem, hrp⟩ := hany
          simp only [Bool.and_eq_true, beq_iff_eq] at hrp
          obtain ⟨⟨hr1, hr2⟩, hr3⟩ := hrp
          have hrkey : r ∈ keyAssocs st.db qid qt := by
            unfold keyAssocs
            rw [List.mem_filter]
            exact ⟨hrmem, by simp [hr1, hr2]⟩
          obtain ⟨y, hymem, hy1, hy2⟩ := hA r hrkey
          have hxy : x ≠ y := by
            intro hxey
            rw [← hxey] at hy2
            rw [hxname] at hy2
            exact hy2 (List.mem_cons_self _ _)
          have : x.tag_id ≠ y.tag_id := by
            have hpw : st.db.tags.Pairwise (fun a b => a.tag_id ≠ b.tag_id) := by
              have := (List.pairwise_map).mp hids
              exact this
            have hsym : Symmetric (fun a b : TagRow => a.tag_id ≠ b.tag_id) :=
              fun _ _ h he => h he.symm
            exact List.Pairwise.forall hsym hpw hxmem hymem hxy
          exact this (by rw [hy1, hr3])
        -- step the loop
        have hstep : setQuestionTagsGo ids now qid qt st (name :: rest) =
            setQuestionTagsGo ids now qid qt
              { st with db := { st.db with question_tags :=
                  st.db.question_tags ++ [⟨qid, qt, x.tag_id⟩] } } rest := by
          simp only [setQuestionTagsGo, hb, if_false]
          unfold getOrCreateTagCore
          rw [hf]
          simp only [hnodup]
          rfl
        set st' : St := { st with db := { st.db with question_tags :=
            st.db.question_tags ++ [⟨qid, qt, x.tag_id⟩] } } with hst'
        have hA' : ∀ r ∈ keyAssocs st'.db qid qt, ∃ t ∈ st'.db.tags,
            t.tag_id = r.tag_id ∧ t.tag_name ∉ trimmedNonBlank rest := by
          intro r hr
          unfold keyAssocs at hr
          rw [hst'] at hr
          simp only [List.filter_append, List.mem_append] at hr
          cases hr with
          | inl hr =>
            obtain ⟨y, hymem, hy1, hy2⟩ := hA r hr
            exact ⟨y, hymem, hy1, fun hc => hy2 (List.mem_cons_of_mem _ hc)⟩
          | inr hr =>
            refine ⟨x, hxmem, ?_, ?_⟩
            · have : r = ⟨qid, qt, x.tag_id⟩ := by simpa using hr
              rw [this]
            · rw [hxname]
              exact hheadnot
        have hres := ih st' hndrest hids hnames
          (fun k h1 h2 t ht => hfresh k h1 (by simp at h2 ⊢; omega) t ht)
          (fun j k h1 h2 h3 h4 => hinj j k h1 (by simp at h2 ⊢; omega) h3 (by simp at h4 ⊢; omega))
          hA'
        rw [hstep, htnb]
        refine ⟨hres.1, ?_, hres.2.2.1, ?_⟩
        · rw [hres.2.1]
          have : (keyAssocs st'.db qid qt).length = (keyAssocs st.db qid qt).length + 1 := by
            unfold keyAssocs
            rw [hst']
            simp
          rw [this]
          simp
          omega
        · rw [hres.2.2.2, hst']
          simp
      | none =>
        have hfreshhead : ∀ t ∈ st.db.tags, ids st.n ≠ t.tag_id := by
          intro t ht
          exact hfresh st.n (le_refl _) (by simp) t ht
        have hnameNew : ∀ t ∈ st.db.tags, ¬(t.tag_name == jsTrim name) = true :=
          List.find?_eq_none.mp hf
        -- the duplicate check cannot fire
        have hnodup : (st.db.question_tags.any
            (fun r => r.question_id == qid && r.question_type == qt &&
              r.tag_id == ids st.n)) = false := by
          rw [Bool.eq_false_iff]
          intro hany
          rw [List.any_eq_true] at hany
          obtain ⟨r, hrmem, hrp⟩ := hany
          simp only [Bool.and_eq_true, beq_iff_eq] at hrp
          obtain ⟨⟨hr1, hr2⟩, hr3⟩ := hrp
          have hrkey : r ∈ keyAssocs st.db qid qt := by
            unfold keyAssocs
            rw [List.mem_filter]
            exact ⟨hrmem, by simp [hr1, hr2]⟩
          obtain ⟨y, hymem, hy1, hy2⟩ := hA r hrkey
          exact hfreshhead y hymem (by rw [hy1, hr3])
        have hstep : setQuestionTagsGo ids now qid qt st (name :: rest) =
            setQuestionTagsGo ids now qid qt
              (St.mk { st.db with
                  tags := st.db.tags ++ [⟨ids st.n, jsTrim name, now⟩],
                  question_tags := st.db.question_tags ++ [⟨qid, qt, ids st.n⟩] }
                (st.n + 1)) rest := by
          simp only [setQuestionTagsGo, hb, if_false]
          unfold getOrCreateTagCore
          rw [hf]
          simp only [hnodup]
          rfl
        set st' : St := St.mk { st.db with
            tags := st.db.tags ++ [⟨ids st.n, jsTrim name, now⟩],
            question_tags := st.db.question_tags ++ [⟨qid, qt, ids st.n⟩] }
          (st.n + 1) with hst'
        have hids' : (st'.db.tags.map (fun t => t.tag_id)).Nodup := by
          rw [hst']
          simp only [List.map_append, List.map_cons, List.map_nil]
          rw [List.nodup_append]
          refine ⟨hids, by simp, ?_⟩
          intro a ha
          simp only [List.mem_singleton]
          simp only [List.mem_map] at ha
          obtain ⟨t, ht, hta⟩ := ha
          intro hc
          rw [← hta] at hc
          exact hfreshhead t ht hc.symm
        have hnames' : (st'.db.tags.map (fun t => t.tag_name)).Nodup := by
          rw [hst']
          simp only [List.map_append, List.map_cons, List.map_nil]
          rw [List.nodup_append]
          refine ⟨hnames, by simp, ?_⟩
          intro a ha
          simp only [List.mem_singleton]
          simp only [List.mem_map] at ha
          obtain ⟨t, ht, hta⟩ := ha
          intro hc
          rw [← hta] at hc
          exact hnameNew t ht (by simp [hc])
        have hfresh' : ∀ k, st'.n ≤ k → k < st'.n + rest.length →
            ∀ t ∈ st'.db.tags, ids k ≠ t.tag_id := by
          intro k h1 h2 t ht
          have h1' : st.n + 1 ≤ k := h1
          have h2' : k < st.n + 1 + rest.length := h2
          have ht' : t ∈ st.db.tags ++ [⟨ids st.n, jsTrim name, now⟩] := ht
          simp only [List.mem_append, List.mem_singleton] at ht'
          cases ht' with
          | inl h => exact hfresh k (by omega) (by simp <;> omega) t h
          | inr h =>
            rw [h]
            intro hc
            have := hinj k st.n (by omega) (by simp <;> omega) (by omega) (by simp <;> omega) hc
            omega
        have hinj' : ∀ j k, st'.n ≤ j → j < st'.n + rest.length → st'.n ≤ k →
            k < st'.n + rest.length → ids j = ids k → j = k := by
          intro j k h1 h2 h3 h4
          have h1' : st.n + 1 ≤ j := h1
          have h2' : j < st.n + 1 + rest.length := h2
          have h3' : st.n + 1 ≤ k := h3
          have h4' : k < st.n + 1 + rest.length := h4
          exact hinj j k (by omega) (by simp <;> omega) (by omega) (by simp <;> omega)
        have hA' : ∀ r ∈ keyAssocs st'.db qid qt, ∃ t ∈ st'.db.tags,
            t.tag_id = r.tag_id ∧ t.tag_name ∉ trimmedNonBlank rest := by
          intro r hr
          unfold keyAssocs at hr
          rw [hst'] at hr
          simp only [List.filter_append, List.mem_append] at hr
          cases hr with
          | inl hr =>
            obtain ⟨y, hymem, hy1, hy2⟩ := hA r hr
            refine ⟨y, ?_, hy1, fun hc => hy2 (List.mem_cons_of_mem _ hc)⟩
            rw [hst']
            simp only [List.mem_append]
            exact Or.inl hymem
          | inr hr =>
            refine ⟨⟨ids st.n, jsTrim name, now⟩, ?_, ?_, ?_⟩
            · rw [hst']
              simp
            · have : r = ⟨qid, qt, ids st.n⟩ := by simpa using hr
              rw [this]
            · simp only
              exact hheadnot
        have hres := ih st' hndrest hids' hnames' hfresh' hinj' hA'
        rw [hstep, htnb]
        refine ⟨hres.1, ?_, ?_, ?_⟩
        · rw [hres.2.1]
          have : (keyAssocs st'.db qid qt).length = (keyAssocs st.db qid qt).length + 1 := by
            unfold keyAssocs
            rw [hst']
            simp
          rw [this]
          simp
          omega
        · intro t ht
          apply hres.2.2.1
          rw [hst']
          simp only [List.mem_append]
          exact Or.inl ht
        · rw [hres.2.2.2, hst']
          simp

/-- C5 (amended): `setQuestionTags` first deletes all existing associations
for the composite key, then inserts one association per non-blank name —
PROVIDED the non-blank names are pairwise distinct after trimming (an input
repeating a trimmed name throws on the association primary key, see the
counterexample).  Under that proviso the call succeeds, the key ends up with
exactly one association per non-blank name, associations of other keys are
untouched, and every pre-existing tag row survives; calling with the empty
list leaves zero associations for the key and the `tags` table unchanged,
and `deleteUnusedTags` is the operation that removes exactly the tags with
no remaining association. -/
theorem setQuestionTags_replace_all (ids : Nat → String) (now : Int) (st : St)
    (qid qt : String) (names : List String)
    (hnd : (trimmedNonBlank names).Nodup)
    (hids : (st.db.tags.map (fun t => t.tag_id)).Nodup)
    (hnames : (st.db.tags.map (fun t => t.tag_name)).Nodup)
    (hfresh : ∀ k < st.n + names.length, st.n ≤ k → ∀ t ∈ st.db.tags, ids k ≠ t.tag_id)
    (hinj : ∀ j < st.n + names.length, ∀ k < st.n + names.length, st.n ≤ j → st.n ≤ k →
      ids j = ids k → j = k) :
    (setQuestionTags ids now st qid qt names).2 = none ∧
    (keyAssocs (setQuestionTags ids now st qid qt names).1.db qid qt).length
      = (trimmedNonBlank names).length ∧
    (∀ t ∈ st.db.tags, t ∈ (setQuestionTags ids now st qid qt names).1.db.tags) ∧
    ((setQuestionTags ids now st qid qt names).1.db.question_tags.filter
        (fun r => !(r.question_id == qid && r.question_type == qt))
      = st.db.question_tags.filter (fun r => !(r.question_id == qid && r.question_type == qt))) ∧
    (setQuestionTags ids now st qid qt []).1.db.tags = st.db.tags ∧
    (setQuestionTags ids now st qid qt []).1.db.question_tags
      = st.db.question_tags.filter (fun r => !(r.question_id == qid && r.question_type == qt)) ∧
    (setQuestionTags ids now st qid qt []).2 = none ∧
    (∀ d : DB, ∀ t, t ∈ (deleteUnusedTags d).tags ↔
      (t ∈ d.tags ∧ d.question_tags.any (fun r => r.tag_id == t.tag_id) = true)) := by
  set st0 : St := ⟨{ st.db with question_tags := st.db.question_tags.filter (fun r =>
    !(r.question_id == qid && r.question_type == qt)) }, st.n⟩ with hst0
  have hunf : setQuestionTags ids now st qid qt names
      = setQuestionTagsGo ids now qid qt st0 names := rfl
  have hkey0 : keyAssocs st0.db qid qt = [] := by
    unfold keyAssocs
    rw [hst0]
    dsimp only
    rw [List.filter_filter]
    rw [List.filter_eq_nil_iff]
    intro a ha
    simp
  have hA0 : ∀ r ∈ keyAssocs st0.db qid qt, ∃ t ∈ st0.db.tags,
      t.tag_id = r.tag_id ∧ t.tag_name ∉ trimmedNonBlank names := by
    rw [hkey0]
    intro r hr
    cases hr
  have hmaster := setTagsGo_master ids now qid qt names st0 hnd hids hnames
    (fun k h1 h2 t ht => hfresh k h2 h1 t ht)
    (fun j k h1 h2 h3 h4 => hinj j h2 k h4 h1 h3)
    hA0
  have hempty : setQuestionTags ids now st qid qt [] = (st0, none) := rfl
  refine ⟨?_, ?_, ?_, ?_, ?_, ?_, ?_, ?_⟩
  · rw [hunf]
    exact hmaster.1
  · rw [hunf, hmaster.2.1, hkey0]
    simp
  · intro t ht
    rw [hunf]
    exact hmaster.2.2.1 t ht
  · rw [hunf, hmaster.2.2.2, hst0]
    dsimp only
    rw [List.filter_filter]
    apply List.filter_congr
    intro a ha
    simp
  · rw [hempty]
  · rw [hempty]
  · rw [hempty]
  · intro d t
    unfold deleteUnusedTags
    dsimp only
    rw [List.mem_filter]

/-- State used by the tag-replace witness: one single-answer question q with
no tags yet. -/
def stQ : St :=
  { db := { DB.empty with
      questions := [⟨"q", "single_answer", 1, 0, 0⟩]
      single_answer_questions := [⟨"q", "single_answer", "?"⟩]
      single_answer_config := [⟨"q", "single_answer", "x", 0, 0⟩] }
    n := 0 }

theorem setQuestionTags_replace_all_witness :
    (setQuestionTags (fun i => "ga" ++ toString i) 0 stQ "q" "single_answer" ["a", "b"]).2
      = none ∧
    (keyAssocs (setQuestionTags (fun i => "gb" ++ toString i) 0
        (setQuestionTags (fun i => "ga" ++ toString i) 0 stQ "q" "single_answer" ["a", "b"]).1
        "q" "single_answer" []).1.db "q" "single_answer").length = 0 ∧
    (setQuestionTags (fun i => "gb" ++ toString i) 0
        (setQuestionTags (fun i => "ga" ++ toString i) 0 stQ "q" "single_answer" ["a", "b"]).1
        "q" "single_answer" []).1.db.tags
      = (setQuestionTags (fun i => "ga" ++ toString i) 0 stQ "q" "single_answer"
          ["a", "b"]).1.db.tags ∧
    (deleteUnusedTags (setQuestionTags (fun i => "gb" ++ toString i) 0
        (setQuestionTags (fun i => "ga" ++ toString i) 0 stQ "q" "single_answer" ["a", "b"]).1
        "q" "single_answer" []).1.db).tags = [] := by
  refine ⟨?_, ?_, ?_, by decide⟩
  · exact (setQuestionTags_replace_all (fun i => "ga" ++ toString i) 0 stQ "q" "single_answer"
      ["a", "b"] (by decide) (by decide) (by decide) (by decide) (by decide)).1
  · exact (setQuestionTags_replace_all (fun i => "gb" ++ toString i) 0
      (setQuestionTags (fun i => "ga" ++ toString i) 0 stQ "q" "single_answer" ["a", "b"]).1
      "q" "single_answer" [] (by decide) (by decide) (by decide) (by decide) (by decide)).2.1
  · exact (setQuestionTags_replace_all (fun i => "gb" ++ toString i) 0
      (setQuestionTags (fun i => "ga" ++ toString i) 0 stQ "q" "single_answer" ["a", "b"]).1
      "q" "single_answer" [] (by decide) (by decide) (by decide) (by decide)
      (by decide)).2.2.2.2.1

theorem sortLe_of_pairwise (le : α → α → Bool) :
    ∀ l : List α, l.Pairwise (fun a b => le a b = true) → sortLe le l = l := by
  intro l
  induction l with
  | nil => intro _; rfl
  | cons x xs ih =>
    intro h
    rw [List.pairwise_cons] at h
    unfold sortLe
    rw [ih h.2]
    cases xs with
    | nil => rfl
    | cons y ys =>
      unfold insertLe
      rw [if_pos (h.1 y (List.mem_cons_self _ _))]

theorem insertedOptionRows_key (ids : Nat → String) (base : Nat) (qid : String) :
    ∀ (os : List OptionInput) (i : Nat), ∀ r ∈ insertedOptionRows ids base qid i os,
      r.question_id = qid ∧ r.question_type = "multi_choice" := by
  intro os
  induction os with
  | nil => intro i r hr; cases hr
  | cons o os ih =>
    intro i r hr
    cases hr with
    | head => exact ⟨rfl, rfl⟩
    | tail _ h => exact ih (i + 1) r h

theorem insertedOptionRows_lb (ids : Nat → String) (base : Nat) (qid : String) :
    ∀ (os : List OptionInput) (i : Nat), ∀ r ∈ insertedOptionRows ids base qid i os,
      (i : Int) ≤ r.display_order := by
  intro os
  induction os with
  | nil => intro i r hr; cases hr
  | cons o os ih =>
    intro i r hr
    cases hr with
    | head => simp [insertedOptionRows]
    | tail _ h =>
      have := ih (i + 1) r h
      push_cast at this ⊢
      omega

theorem insertedOptionRows_sorted (ids : Nat → String) (base : Nat) (qid : String) :
    ∀ (os : List OptionInput) (i : Nat),
      (insertedOptionRows ids base qid i os).Pairwise
        (fun a b => decide (a.display_order ≤ b.display_order) = true) := by
  intro os
  induction os with
  | nil => intro i; exact List.Pairwise.nil
  | cons o os ih =>
    intro i
    unfold insertedOptionRows
    rw [List.pairwise_cons]
    refine ⟨?_, ih (i + 1)⟩
    intro r hr
    have := insertedOptionRows_lb ids base qid os (i + 1) r hr
    simp only [decide_eq_true_eq]
    push_cast at this ⊢
    omega

theorem insertedOptionRows_view (ids : Nat → String) (base : Nat) (qid : String) :
    ∀ (os : List OptionInput) (i : Nat),
      (insertedOptionRows ids base qid i os).map (fun r => (r.option_text, r.is_correct != 0))
        = os.map (fun o => (o.optionText, o.isCorrect)) := by
  intro os
  induction os with
  | nil => intro i; rfl
  | cons o os ih =>
    intro i
    unfold insertedOptionRows
    simp only [List.map_cons, ih (i + 1)]
    have : (boolToInt o.isCorrect != 0) = o.isCorrect := by
      cases o.isCorrect <;> rfl
    rw [this]

theorem insertedOptionRows_orders (ids : Nat → String) (base : Nat) (qid : String) :
    ∀ (os : List OptionInput) (i : Nat),
      (insertedOptionRows ids base qid i os).map (fun r => r.display_order)
        = (List.range' i os.length).map (fun k => Int.ofNat k) := by
  intro os
  induction os with
  | nil => intro i; rfl
  | cons o os ih =>
    intro i
    have h1 : List.range' i (o :: os).length = i :: List.range' (i + 1) os.length := rfl
    rw [h1]
    unfold insertedOptionRows
    rw [List.map_cons, List.map_cons, ih (i + 1)]
    rfl

theorem createFinishTags_pres (ids : Nat → String) (now : Int) (st : St) (qid qt : String)
    (tags : Option (List String)) :
    (createFinishTags ids now st qid qt tags).1.db.questions = st.db.questions ∧
    (createFinishTags ids now st qid qt tags).1.db.multi_choice_questions
      = st.db.multi_choice_questions ∧
    (createFinishTags ids now st qid qt tags).1.db.multi_choice_options
      = st.db.multi_choice_options := by
  unfold createFinishTags
  cases tags with
  | none => exact ⟨rfl, rfl, rfl⟩
  | some l =>
    by_cases hl : l.isEmpty
    · simp [hl]
    · simp only [hl, if_false, Bool.false_eq_true]
      have hp := setQuestionTags_pres ids now st qid qt l
      cases h2 : (setQuestionTags ids now st qid qt l).2 <;>
        simp only [h2] <;> exact ⟨hp.1, hp.2.2.2.1, hp.2.2.2.2⟩

/-- C3: for a valid option list, `createMultiChoiceQuestion` persists one
option row per input option with `displayOrder` equal to its 0-based input
position, and `getMultiChoiceQuestion` (ORDER BY display_order ascending)
returns the options in the original input order regardless of correctness
flags.  Hypotheses: the options validate, the effective difficulty passes the
schema CHECK, and the freshly generated question identifier collides with no
existing row. -/
theorem createMC_display_order (ids : Nat → String) (now : Int) (st : St) (data : MCData)
    (hvalid : validateOptions data.options (jsTruthy data.allowMultipleSelection) = .ok ())
    (hdiff : 1 ≤ jsOrOne data.difficulty ∧ jsOrOne data.difficulty ≤ 5)
    (hq : ∀ r ∈ st.db.questions, r.question_id ≠ ids st.n)
    (hmcq : ∀ r ∈ st.db.multi_choice_questions, r.question_id ≠ ids st.n)
    (hmco : ∀ r ∈ st.db.multi_choice_options, r.question_id ≠ ids st.n) :
    ∃ v, getMultiChoiceQuestion (createMultiChoiceQuestion ids now st data).1.db (ids st.n)
        = some v ∧
      v.options.map (fun o => (o.optionText, o.isCorrect))
        = data.options.map (fun o => (o.optionText, o.isCorrect)) ∧
      v.options.map (fun o => o.displayOrder)
        = (List.range data.options.length).map (fun k => Int.ofNat k) := by
  unfold createMultiChoiceQuestion
  rw [hvalid]
  try dsimp only
  rw [if_pos hdiff]
  try dsimp only
  have hpres := createFinishTags_pres ids now
    ⟨{ st.db with
        questions := st.db.questions ++ [⟨ids st.n, "multi_choice", jsOrOne data.difficulty, now, now⟩]
        multi_choice_questions := st.db.multi_choice_questions ++
          [⟨ids st.n, "multi_choice", data.questionText,
            boolToInt (jsTruthy data.shuffleOptions),
            boolToInt (jsTruthy data.allowMultipleSelection)⟩]
        multi_choice_options := st.db.multi_choice_options ++
          insertedOptionRows ids (st.n + 1) (ids st.n) 0 data.options },
      st.n + 1 + data.options.length⟩
    (ids st.n) "multi_choice" data.tags
  unfold getMultiChoiceQuestion
  rw [hpres.1, hpres.2.1, hpres.2.2]
  dsimp only
  have hfq : (st.db.questions ++
      [(⟨ids st.n, "multi_choice", jsOrOne data.difficulty, now, now⟩ : QuestionRow)]).find?
        (fun r => r.question_id == ids st.n && r.question_type == "multi_choice")
      = some ⟨ids st.n, "multi_choice", jsOrOne data.difficulty, now, now⟩ := by
    rw [List.find?_append]
    have h1 : st.db.questions.find?
        (fun r => r.question_id == ids st.n && r.question_type == "multi_choice") = none := by
      rw [List.find?_eq_none]
      intro r hr
      simp only [Bool.and_eq_true, beq_iff_eq, not_and]
      intro hc
      exact absurd hc (hq r hr)
    rw [h1, Option.none_or]
    simp [List.find?]
  have hfb : (st.db.multi_choice_questions ++
      [(⟨ids st.n, "multi_choice", data.questionText,
          boolToInt (jsTruthy data.shuffleOptions),
          boolToInt (jsTruthy data.allowMultipleSelection)⟩ : MCQuestionRow)]).find?
        (fun r => r.question_id == ids st.n && r.question_type == "multi_choice")
      = some ⟨ids st.n, "multi_choice", data.questionText,
          boolToInt (jsTruthy data.shuffleOptions),
          boolToInt (jsTruthy data.allowMultipleSelection)⟩ := by
    rw [List.find?_append]
    have h1 : st.db.multi_choice_questions.find?
        (fun r => r.question_id == ids st.n && r.question_type == "multi_choice") = none := by
      rw [List.find?_eq_none]
      intro r hr
      simp only [Bool.and_eq_true, beq_iff_eq, not_and]
      intro hc
      exact absurd hc (hmcq r hr)
    rw [h1, Option.none_or]
    simp [List.find?]
  rw [hfq, hfb]
  dsimp only
  have hfilter : (st.db.multi_choice_options ++
      insertedOptionRows ids (st.n + 1) (ids st.n) 0 data.options).filter
        (fun r => r.question_id == ids st.n && r.question_type == "multi_choice")
      = insertedOptionRows ids (st.n + 1) (ids st.n) 0 data.options := by
    rw [List.filter_append]
    have h1 : st.db.multi_choice_options.filter
        (fun r => r.question_id == ids st.n && r.question_type == "multi_choice") = [] := by
      rw [List.filter_eq_nil_iff]
      intro r hr
      simp only [Bool.and_eq_true, beq_iff_eq, not_and]
      intro hc
      exact absurd hc (hmco r hr)
    have h2 : (insertedOptionRows ids (st.n + 1) (ids st.n) 0 data.options).filter
        (fun r => r.question_id == ids st.n && r.question_type == "multi_choice")
      = insertedOptionRows ids (st.n + 1) (ids st.n) 0 data.options := by
      rw [List.filter_eq_self]
      intro r hr
      have := insertedOptionRows_key ids (st.n + 1) (ids st.n) data.options 0 r hr
      simp [this.1, this.2]
    rw [h1, h2, List.nil_append]
  rw [hfilter]
  rw [sortLe_of_pairwise _ _ (insertedOptionRows_sorted ids (st.n + 1) (ids st.n) data.options 0)]
  refine ⟨_, rfl, ?_, ?_⟩
  · rw [List.map_map]
    exact insertedOptionRows_view ids (st.n + 1) (ids st.n) data.options 0
  · rw [List.map_map, List.range_eq_range']
    exact insertedOptionRows_orders ids (st.n + 1) (ids st.n) data.options 0

/-- Payload used by the display-order witness: options 3, 4, 5 with only the
middle one correct, multiple selection disabled. -/
def mcDataXYZ : MCData :=
  { questionText := "2+2?", options := [⟨"3", false⟩, ⟨"4", true⟩, ⟨"5", false⟩]
    shuffleOptions := none, allowMultipleSelection := none, tags := none, difficulty := none }

theorem createMC_display_order_witness :
    (getMultiChoiceQuestion (createMultiChoiceQuestion (fun i => "g" ++ toString i) 3
        ⟨DB.empty, 0⟩ mcDataXYZ).1.db ((fun i => "g" ++ toString i) 0)).map
      (fun v => v.options.map (fun o => (o.optionText, o.isCorrect)))
      = some [("3", false), ("4", true), ("5", false)] ∧
    (getMultiChoiceQuestion (createMultiChoiceQuestion (fun i => "g" ++ toString i) 3
        ⟨DB.empty, 0⟩ mcDataXYZ).1.db ((fun i => "g" ++ toString i) 0)).map
      (fun v => v.options.map (fun o => o.displayOrder))
      = some [0, 1, 2] := by
  obtain ⟨v, hv, h1, h2⟩ := createMC_display_order (fun i => "g" ++ toString i) 3
    ⟨DB.empty, 0⟩ mcDataXYZ (by rfl) (by decide) (by decide) (by decide) (by decide)
  constructor
  · rw [hv, Option.map_some', h1]
    rfl
  · rw [hv, Option.map_some', h2]
    rfl

theorem find?_map_ite {α : Type} (p : α → Bool) (F : α → α) (l : List α)
    (hF : ∀ r, p r = true → p (F r) = true) :
    (l.map (fun r => if p r then F r else r)).find? p
      = (l.find? p).map (fun r => if p r then F r else r) := by
  rw [List.find?_map]
  have hpg : (p ∘ fun r => if p r then F r else r) = p := by
    funext r
    by_cases h : p r = true
    · simp [h, hF r h]
    · simp only [Bool.not_eq_true] at h
      simp [h]
  rw [hpg]

/-- C7: `updateSingleAnswerQuestion` updates the core difficulty, the body
text and the three config fields independently and only when present in the
partial input, keeping every absent field's stored value; an entirely empty
partial input still sets the updated timestamp to `now` and changes nothing
else.  `q`, `b`, `c` are the stored rows of the existing question (the find?
hypotheses), the first conjunct identifies the pre-state view built from
them, and the tag list is untouched since the partial omits tags. -/
theorem updateSA_partial (ids : Nat → String) (now : Int) (st : St) (qid : String)
    (data : SAUpdateData) (q : QuestionRow) (b : SAQuestionRow) (c : SAConfigRow)
    (hfq : st.db.questions.find? (fun r =>
      r.question_id == qid && r.question_type == "single_answer") = some q)
    (hfb : st.db.single_answer_questions.find? (fun r =>
      r.question_id == qid && r.question_type == "single_answer") = some b)
    (hfc : st.db.single_answer_config.find? (fun r =>
      r.question_id == qid && r.question_type == "single_answer") = some c)
    (htags : data.tags = none)
    (hdiff : ∀ d, data.difficulty = some d → 1 ≤ d ∧ d ≤ 5) :
    getSingleAnswerQuestion st.db qid = some ⟨q.question_id, b.question_text,
      c.correct_answer, c.case_sensitive != 0, c.allow_partial_match != 0,
      getQuestionTags st.db qid "single_answer", q.difficulty, q.created_at,
      q.updated_at⟩ ∧
    (updateSingleAnswerQuestion ids now st qid data).2 = none ∧
    getSingleAnswerQuestion (updateSingleAnswerQuestion ids now st qid data).1.db qid
      = some ⟨q.question_id, data.questionText.getD b.question_text,
          data.correctAnswer.getD c.correct_answer,
          data.caseSensitive.getD (c.case_sensitive != 0),
          data.allowPartialMatch.getD (c.allow_partial_match != 0),
          getQuestionTags st.db qid "single_answer",
          data.difficulty.getD q.difficulty, q.created_at, now⟩ ∧
    getSingleAnswerQuestion
        (updateSingleAnswerQuestion ids now st qid SAUpdateData.empty).1.db qid
      = some ⟨q.question_id, b.question_text, c.correct_answer, c.case_sensitive != 0,
          c.allow_partial_match != 0, getQuestionTags st.db qid "single_answer",
          q.difficulty, q.created_at, now⟩ := by
  have hpq := List.find?_some hfq
  have hpb := List.find?_some hfb
  have hpc := List.find?_some hfc
  have main : ∀ (dd : SAUpdateData), dd.tags = none →
      (∀ d, dd.difficulty = some d → 1 ≤ d ∧ d ≤ 5) →
      (updateSingleAnswerQuestion ids now st qid dd).2 = none ∧
      getSingleAnswerQuestion (updateSingleAnswerQuestion ids now st qid dd).1.db qid
        = some ⟨q.question_id, dd.questionText.getD b.question_text,
            dd.correctAnswer.getD c.correct_answer,
            dd.caseSensitive.getD (c.case_sensitive != 0),
            dd.allowPartialMatch.getD (c.allow_partial_match != 0),
            getQuestionTags st.db qid "single_answer",
            dd.difficulty.getD q.difficulty, q.created_at, now⟩ := by
    intro dd hdt hdd
    have hbad : (match dd.difficulty with
        | some d => !((1 ≤ d : Bool) && (d ≤ 5 : Bool))
        | none => false) = false := by
      cases hd : dd.difficulty with
      | none => rfl
      | some d =>
        have := hdd d hd
        simp [this.1, this.2]
    have hq2 : (st.db.questions.map (fun r =>
        if r.question_id == qid && r.question_type == "single_answer" then
          match dd.difficulty with
          | some d => { r with difficulty := d, updated_at := now }
          | none => { r with updated_at := now }
        else r)).find? (fun r =>
          r.question_id == qid && r.question_type == "single_answer")
        = some (match dd.difficulty with
          | some d => { q with difficulty := d, updated_at := now }
          | none => { q with updated_at := now }) := by
      rw [find?_map_ite
        (fun r : QuestionRow => r.question_id == qid && r.question_type == "single_answer")
        (fun r : QuestionRow => match dd.difficulty with
          | some d => { r with difficulty := d, updated_at := now }
          | none => { r with updated_at := now })
        st.db.questions
        (fun r h => by cases dd.difficulty <;> exact h)]
      rw [hfq, Option.map_some', if_pos hpq]
    have hb2 : ((match dd.questionText with
        | some t => st.db.single_answer_questions.map (fun r : SAQuestionRow =>
            if r.question_id == qid && r.question_type == "single_answer" then
              { r with question_text := t }
            else r)
        | none => st.db.single_answer_questions) : List SAQuestionRow).find? (fun r =>
          r.question_id == qid && r.question_type == "single_answer")
        = some (match dd.questionText with
          | some t => { b with question_text := t }
          | none => b) := by
      cases dd.questionText with
      | none => exact hfb
      | some t =>
        rw [find?_map_ite
          (fun r : SAQuestionRow => r.question_id == qid && r.question_type == "single_answer")
          (fun r : SAQuestionRow => { r with question_text := t })
          st.db.single_answer_questions
          (fun r h => h)]
        rw [hfb, Option.map_some', if_pos hpb]
    have hc2 : ((if dd.correctAnswer.isSome || dd.caseSensitive.isSome ||
          dd.allowPartialMatch.isSome then
        st.db.single_answer_config.map (fun r : SAConfigRow =>
          if r.question_id == qid && r.question_type == "single_answer" then
            { r with
              correct_answer := dd.correctAnswer.getD r.correct_answer
              case_sensitive := match dd.caseSensitive with
                | some bb => boolToInt bb
                | none => r.case_sensitive
              allow_partial_match := match dd.allowPartialMatch with
                | some bb => boolToInt bb
                | none => r.allow_partial_match }
          else r)
      else st.db.single_answer_config) : List SAConfigRow).find? (fun r =>
          r.question_id == qid && r.question_type == "single_answer")
        = some (if dd.correctAnswer.isSome || dd.caseSensitive.isSome ||
            dd.allowPartialMatch.isSome then
          { c with
            correct_answer := dd.correctAnswer.getD c.correct_answer
            case_sensitive := match dd.caseSensitive with
              | some bb => boolToInt bb
              | none => c.case_sensitive
            allow_partial_match := match dd.allowPartialMatch with
              | some bb => boolToInt bb
              | none => c.allow_partial_match }
        else c) := by
      by_cases htc : (dd.correctAnswer.isSome || dd.caseSensitive.isSome ||
          dd.allowPartialMatch.isSome) = true
      · rw [if_pos htc, if_pos htc]
        rw [find?_map_ite
          (fun r : SAConfigRow => r.question_id == qid && r.question_type == "single_answer")
          (fun r : SAConfigRow => { r with
            correct_answer := dd.correctAnswer.getD r.correct_answer
            case_sensitive := match dd.caseSensitive with
              | some bb => boolToInt bb
              | none => r.case_sensitive
            allow_partial_match := match dd.allowPartialMatch with
              | some bb => boolToInt bb
              | none => r.allow_partial_match })
          st.db.single_answer_config
          (fun r h => h)]
        rw [hfc, Option.map_some', if_pos hpc]
      · rw [if_neg htc, if_neg htc]
        exact hfc
    constructor
    · unfold updateSingleAnswerQuestion
      simp only [hbad, Bool.false_eq_true, if_false, hdt]
    · unfold updateSingleAnswerQuestion
      simp only [hbad, Bool.false_eq_true, if_false, hdt]
      unfold getSingleAnswerQuestion
      dsimp only
      rw [hq2, hb2, hc2]
      dsimp only
      rcases hd : dd.difficulty with _ | d <;>
        rcases hqt : dd.questionText with _ | t <;>
          rcases hca : dd.correctAnswer with _ | ca <;>
            rcases hcs : dd.caseSensitive with _ | cs <;>
              rcases hpm : dd.allowPartialMatch with _ | pm <;>
                simp [getQuestionTags, boolToInt] <;>
                  (try cases cs) <;> (try cases pm) <;> simp
  refine ⟨?_, (main data htags hdiff).1, (main data htags hdiff).2, ?_⟩
  · unfold getSingleAnswerQuestion
    rw [hfq, hfb, hfc]
  · have h4 := (main SAUpdateData.empty rfl (fun d hd => by cases hd)).2
    simpa [SAUpdateData.empty] using h4

/-- State used by the partial-update witness: one single-answer question q1
with difficulty 2, text "Capital?", answer "Paris", both flags off. -/
def stSA : St :=
  { db := { DB.empty with
      questions := [⟨"q1", "single_answer", 2, 5, 5⟩]
      single_answer_questions := [⟨"q1", "single_answer", "Capital?"⟩]
      single_answer_config := [⟨"q1", "single_answer", "Paris", 0, 0⟩] }
    n := 0 }

/-- Partial update supplying only the correct answer. -/
def saDataCA : SAUpdateData :=
  { questionText := none, correctAnswer := some "Paris!", caseSensitive := none
    allowPartialMatch := none, tags := none, difficulty := none }

theorem updateSA_partial_witness :
    getSingleAnswerQuestion
        (updateSingleAnswerQuestion (fun i => "g" ++ toString i) 9 stSA "q1" saDataCA).1.db "q1"
      = some ⟨"q1", "Capital?", "Paris!", false, false, [], 2, 5, 9⟩ ∧
    getSingleAnswerQuestion
        (updateSingleAnswerQuestion (fun i => "g" ++ toString i) 9 stSA "q1"
          SAUpdateData.empty).1.db "q1"
      = some ⟨"q1", "Capital?", "Paris", false, false, [], 2, 5, 9⟩ := by
  have h := updateSA_partial (fun i => "g" ++ toString i) 9 stSA "q1" saDataCA
    ⟨"q1", "single_answer", 2, 5, 5⟩ ⟨"q1", "single_answer", "Capital?"⟩
    ⟨"q1", "single_answer", "Paris", 0, 0⟩ (by rfl) (by rfl) (by rfl) rfl
    (fun d hd => Option.noConfusion hd)
  exact ⟨h.2.2.1.trans (by decide), h.2.2.2.trans (by decide)⟩

/-- Modelled from the spec: the Relational Engine collaborator's
`exportImage` / `importImage` ("full database snapshot round-trip for
backup/restore") — the engine's binary serialization itself is not part of
this repository, so it is modelled as an explicit injective encoding of the
database into a token stream, with a proved decoder.  String field encoding:
length followed by character codes. -/
def encodeStr (s : String) : List Nat :=
  s.toList.length :: s.toList.map Char.toNat

/-- Decoder for `encodeStr`, returning the remaining stream. -/
def decodeStr : List Nat → Option (String × List Nat)
  | [] => none
  | n :: rest =>
    if n ≤ rest.length then
      some (String.mk ((rest.take n).map (fun k => Char.ofNat k)), rest.drop n)
    else none

/-- Integer field encoding: sign flag and magnitude. -/
def encodeInt (i : Int) : List Nat :=
  [if i < 0 then 1 else 0, i.natAbs]

/-- Decoder for `encodeInt`. -/
def decodeInt : List Nat → Option (Int × List Nat)
  | b :: m :: rest => some (if b = 0 then (m : Int) else -(m : Int), rest)
  | _ => none

theorem decodeStr_encodeStr (s : String) (r : List Nat) :
    decodeStr (encodeStr s ++ r) = some (s, r) := by
  have hlen : (s.toList.map Char.toNat).length = s.toList.length := List.length_map _ _
  have hstep : encodeStr s ++ r = s.toList.length :: (s.toList.map Char.toNat ++ r) := rfl
  rw [hstep]
  simp only [decodeStr]
  rw [if_pos (by rw [List.length_append, hlen]; omega)]
  rw [List.take_left' hlen, List.drop_left' hlen]
  rw [List.map_map]
  have hcomp : (fun k => Char.ofNat k) ∘ Char.toNat = id := by
    funext c
    exact Char.ofNat_toNat c
  rw [hcomp, List.map_id]
  rfl

theorem decodeInt_encodeInt (i : Int) (r : List Nat) :
    decodeInt (encodeInt i ++ r) = some (i, r) := by
  by_cases h : i < 0
  · have hstep : encodeInt i ++ r = 1 :: i.natAbs :: r := by simp [encodeInt, h]
    rw [hstep]
    simp only [decodeInt]
    rw [if_neg (by omega)]
    have h2 : ((i.natAbs : Int)) = -i := by omega
    rw [h2]
    simp
  · have hstep : encodeInt i ++ r = 0 :: i.natAbs :: r := by simp [encodeInt, h]
    rw [hstep]
    simp only [decodeInt, if_true]
    have h2 : ((i.natAbs : Int)) = i := by omega
    rw [h2]

/-- Length-prefixed encoding of a table (list of rows). -/
def encodeListBy (enc : α → List Nat) (l : List α) : List Nat :=
  l.length :: (l.map enc).flatten

/-- Decode a known number of rows. -/
def decodeCount (dec : List Nat → Option (α × List Nat)) :
    Nat → List Nat → Option (List α × List Nat)
  | 0, l => some ([], l)
  | n + 1, l =>
    match dec l with
    | none => none
    | some (x, l1) =>
      match decodeCount dec n l1 with
      | none => none
      | some (xs, l2) => some (x :: xs, l2)

/-- Decoder for `encodeListBy`. -/
def decodeListBy (dec : List Nat → Option (α × List Nat)) :
    List Nat → Option (List α × List Nat)
  | [] => none
  | n :: rest => decodeCount dec n rest

theorem decodeCount_encode (dec : List Nat → Option (α × List Nat)) (enc : α → List Nat)
    (hdec : ∀ x r, dec (enc x ++ r) = some (x, r)) :
    ∀ (xs : List α) (r : List Nat),
      decodeCount dec xs.length ((xs.map enc).flatten ++ r) = some (xs, r) := by
  intro xs
  induction xs with
  | nil => intro r; simp [decodeCount]
  | cons x xs ih =>
    intro r
    simp only [List.map_cons, List.flatten_cons, List.length_cons, List.append_assoc]
    unfold decodeCount
    rw [hdec x ((xs.map enc).flatten ++ r)]
    dsimp only
    rw [ih r]

theorem decodeListBy_encodeListBy (dec : List Nat → Option (α × List Nat))
    (enc : α → List Nat) (hdec : ∀ x r, dec (enc x ++ r) = some (x, r))
    (xs : List α) (r : List Nat) :
    decodeListBy dec (encodeListBy enc xs ++ r) = some (xs, r) := by
  unfold encodeListBy decodeListBy
  rw [List.cons_append]
  exact decodeCount_encode dec enc hdec xs r

/-- Row encodings: concatenation of the field encodings, in column order. -/
def encodeQuestionRow (x : QuestionRow) : List Nat :=
  encodeStr x.question_id ++ encodeStr x.question_type ++ encodeInt x.difficulty ++
    encodeInt x.created_at ++ encodeInt x.updated_at

def decodeQuestionRow (l : List Nat) : Option (QuestionRow × List Nat) := do
  let (a, l) ← decodeStr l
  let (b, l) ← decodeStr l
  let (c, l) ← decodeInt l
  let (d, l) ← decodeInt l
  let (e, l) ← decodeInt l
  some (⟨a, b, c, d, e⟩, l)

def encodeSAQuestionRow (x : SAQuestionRow) : List Nat :=
  encodeStr x.question_id ++ encodeStr x.question_type ++ encodeStr x.question_text

def decodeSAQuestionRow (l : List Nat) : Option (SAQuestionRow × List Nat) := do
  let (a, l) ← decodeStr l
  let (b, l) ← decodeStr l
  let (c, l) ← decodeStr l
  some (⟨a, b, c⟩, l)

def encodeSAConfigRow (x : SAConfigRow) : List Nat :=
  encodeStr x.question_id ++ encodeStr x.question_type ++ encodeStr x.correct_answer ++
    encodeInt x.case_sensitive ++ encodeInt x.allow_partial_match

def decodeSAConfigRow (l : List Nat) : Option (SAConfigRow × List Nat) := do
  let (a, l) ← decodeStr l
  let (b, l) ← decodeStr l
  let (c, l) ← decodeStr l
  let (d, l) ← decodeInt l
  let (e, l) ← decodeInt l
  some (⟨a, b, c, d, e⟩, l)

def encodeMCQuestionRow (x : MCQuestionRow) : List Nat :=
  encodeStr x.question_id ++ encodeStr x.question_type ++ encodeStr x.question_text ++
    encodeInt x.shuffle_options ++ encodeInt x.allow_multiple_selection

def decodeMCQuestionRow (l : List Nat) : Option (MCQuestionRow × List Nat) := do
  let (a, l) ← decodeStr l
  let (b, l) ← decodeStr l
  let (c, l) ← decodeStr l
  let (d, l) ← decodeInt l
  let (e, l) ← decodeInt l
  some (⟨a, b, c, d, e⟩, l)

def encodeMCOptionRow (x : MCOptionRow) : List Nat :=
  encodeStr x.option_id ++ encodeStr x.question_id ++ encodeStr x.question_type ++
    encodeStr x.option_text ++ encodeInt x.is_correct ++ encodeInt x.display_order

def decodeMCOptionRow (l : List Nat) : Option (MCOptionRow × List Nat) := do
  let (a, l) ← decodeStr l
  let (b, l) ← decodeStr l
  let (c, l) ← decodeStr l
  let (d, l) ← decodeStr l
  let (e, l) ← decodeInt l
  let (f, l) ← decodeInt l
  some (⟨a, b, c, d, e, f⟩, l)

def encodeTagRow (x : TagRow) : List Nat :=
  encodeStr x.tag_id ++ encodeStr x.tag_name ++ encodeInt x.created_at

def decodeTagRow (l : List Nat) : Option (TagRow × List Nat) := do
  let (a, l) ← decodeStr l
  let (b, l) ← decodeStr l
  let (c, l) ← decodeInt l
  some (⟨a, b, c⟩, l)

def encodeQuestionTagRow (x : QuestionTagRow) : List Nat :=
  encodeStr x.question_id ++ encodeStr x.question_type ++ encodeStr x.tag_id

def decodeQuestionTagRow (l : List Nat) : Option (QuestionTagRow × List Nat) := do
  let (a, l) ← decodeStr l
  let (b, l) ← decodeStr l
  let (c, l) ← decodeStr l
  some (⟨a, b, c⟩, l)

theorem decodeQuestionRow_encode (x : QuestionRow) (r : List Nat) :
    decodeQuestionRow (encodeQuestionRow x ++ r) = some (x, r) := by
  unfold encodeQuestionRow decodeQuestionRow
  simp [List.append_assoc, decodeStr_encodeStr, decodeInt_encodeInt]

theorem decodeSAQuestionRow_encode (x : SAQuestionRow) (r : List Nat) :
    decodeSAQuestionRow (encodeSAQuestionRow x ++ r) = some (x, r) := by
  unfold encodeSAQuestionRow decodeSAQuestionRow
  simp [List.append_assoc, decodeStr_encodeStr]

theorem decodeSAConfigRow_encode (x : SAConfigRow) (r : List Nat) :
    decodeSAConfigRow (encodeSAConfigRow x ++ r) = some (x, r) := by
  unfold encodeSAConfigRow decodeSAConfigRow
  simp [List.append_assoc, decodeStr_encodeStr, decodeInt_encodeInt]

theorem decodeMCQuestionRow_encode (x : MCQuestionRow) (r : List Nat) :
    decodeMCQuestionRow (encodeMCQuestionRow x ++ r) = some (x, r) := by
  unfold encodeMCQuestionRow decodeMCQuestionRow
  simp [List.append_assoc, decodeStr_encodeStr, decodeInt_encodeInt]

theorem decodeMCOptionRow_encode (x : MCOptionRow) (r : List Nat) :
    decodeMCOptionRow (encodeMCOptionRow x ++ r) = some (x, r) := by
  unfold encodeMCOptionRow decodeMCOptionRow
  simp [List.append_assoc, decodeStr_encodeStr, decodeInt_encodeInt]

theorem decodeTagRow_encode (x : TagRow) (r : List Nat) :
    decodeTagRow (encodeTagRow x ++ r) = some (x, r) := by
  unfold encodeTagRow decodeTagRow
  simp [List.append_assoc, decodeStr_encodeStr, decodeInt_encodeInt]

theorem decodeQuestionTagRow_encode (x : QuestionTagRow) (r : List Nat) :
    decodeQuestionTagRow (encodeQuestionTagRow x ++ r) = some (x, r) := by
  unfold encodeQuestionTagRow decodeQuestionTagRow
  simp [List.append_assoc, decodeStr_encodeStr]

/-- `exportDB` (src/src/storage/sqlite.ts): returns the full snapshot image
of the live database — here the concatenation of the seven table encodings. -/
def exportDB (db : DB) : List Nat :=
  encodeListBy encodeQuestionRow db.questions ++
  encodeListBy encodeSAQuestionRow db.single_answer_questions ++
  encodeListBy encodeSAConfigRow db.single_answer_config ++
  encodeListBy encodeMCQuestionRow db.multi_choice_questions ++
  encodeListBy encodeMCOptionRow db.multi_choice_options ++
  encodeListBy encodeTagRow db.tags ++
  encodeListBy encodeQuestionTagRow db.question_tags

/-- `importDB` (src/src/storage/sqlite.ts): replaces the live database with
the one read from the image (and persists it); a malformed image fails. -/
def importDB (bytes : List Nat) : Option DB := do
  let (t1, l) ← decodeListBy decodeQuestionRow bytes
  let (t2, l) ← decodeListBy decodeSAQuestionRow l
  let (t3, l) ← decodeListBy decodeSAConfigRow l
  let (t4, l) ← decodeListBy decodeMCQuestionRow l
  let (t5, l) ← decodeListBy decodeMCOptionRow l
  let (t6, l) ← decodeListBy decodeTagRow l
  let (t7, l) ← decodeListBy decodeQuestionTagRow l
  if l.isEmpty then some ⟨t1, t2, t3, t4, t5, t6, t7⟩ else none

/-- C6: importing the image produced by export restores the database exactly,
so every query over every table returns the same results as before the
export (the engine snapshot primitive is modelled from the spec as an
explicit encoding with a proved decoder; `exportDB`/`importDB` wire it to
the live database). -/
theorem importDB_exportDB (db : DB) : importDB (exportDB db) = some db := by
  have h1 := decodeListBy_encodeListBy decodeQuestionRow encodeQuestionRow
    decodeQuestionRow_encode db.questions
  have h2 := decodeListBy_encodeListBy decodeSAQuestionRow encodeSAQuestionRow
    decodeSAQuestionRow_encode db.single_answer_questions
  have h3 := decodeListBy_encodeListBy decodeSAConfigRow encodeSAConfigRow
    decodeSAConfigRow_encode db.single_answer_config
  have h4 := decodeListBy_encodeListBy decodeMCQuestionRow encodeMCQuestionRow
    decodeMCQuestionRow_encode db.multi_choice_questions
  have h5 := decodeListBy_encodeListBy decodeMCOptionRow encodeMCOptionRow
    decodeMCOptionRow_encode db.multi_choice_options
  have h6 := decodeListBy_encodeListBy decodeTagRow encodeTagRow
    decodeTagRow_encode db.tags
  have h7 := decodeListBy_encodeListBy decodeQuestionTagRow encodeQuestionTagRow
    decodeQuestionTagRow_encode db.question_tags
  have h7e : decodeListBy decodeQuestionTagRow
      (encodeListBy encodeQuestionTagRow db.question_tags)
      = some (db.question_tags, []) := by
    have := h7 []
    simpa using this
  unfold exportDB importDB
  simp [List.append_assoc, h1, h2, h3, h4, h5, h6, h7e]
